import Mathlib

/-!
Shallow embedding of the dns-delay-server query handler.

The embedded code is `newDNSHandler` from src/main.go together with the
`Records` configuration structure and the process-wide `choiceMap` counter
map.  The external library functions the handler calls — Go's
`net.ParseIP`, and miekg/dns's `NewRR` and `Msg.SetReply` — are modelled
by executable Lean functions documented at their definitions.  A Go
runtime panic (out-of-range slice index) is modelled as a
`HandlerOutcome.panic` value: the handler aborts and no reply is written.
-/

namespace DnsDelayServer

/-- DNS record-type code for A queries (`dns.TypeA`). -/
def typeA : Nat := 1

/-- DNS record-type code for AAAA queries (`dns.TypeAAAA`). -/
def typeAAAA : Nat := 28

/-- DNS opcode of a standard query (`dns.OpcodeQuery`). -/
def opcodeQuery : Nat := 0

/-- The configured answer sets (src/main.go, `type Records struct`). -/
structure Records where
  A : List String
  AAAA : List String
  CNAMEA : List String
  CNAMEAAAA : List String
deriving DecidableEq

/-- One question of an inbound message (`dns.Question`): the queried name
and the numeric query type. -/
structure Question where
  name : String
  qtype : Nat
deriving DecidableEq

/-- A resource record as produced by `dns.NewRR` on the zone-format string
`"<owner> <type> <rdata>"`: owner name, record type, record data. -/
structure RR where
  rname : String
  rtype : String
  rdata : String
deriving DecidableEq

/-- The fields of a `dns.Msg` the handler reads or writes. -/
structure Msg where
  opcode : Nat
  question : List Question
  answer : List RR
  ns : List RR
  authoritative : Bool
  compress : Bool
  response : Bool
deriving DecidableEq

/-- The resolved configuration `newDNSHandler` closes over: the answer
sets, the two delays (opaque to the reply's content), the authority
hostname and the alternation flag. -/
structure Config where
  records : Records
  aDelay : Nat
  aaaaDelay : Nat
  authority : String
  alternateRecords : Bool

/-- The process-wide alternation counter map
(src/main.go line 15, `var choiceMap = make(map[string]int)`).
A key that was never written reads as `0`, matching both Go map semantics
and the explicit lazy initialisation at lines 88-90 of the handler. -/
def ChoiceMap : Type := String → Nat

/-- The state of `choiceMap` at process start: every counter is zero. -/
def emptyChoiceMap : ChoiceMap := fun _ => 0

/-- Store `v` under key `k` (Go: `choiceMap[k] = v`). -/
def updateCM (cm : ChoiceMap) (k : String) (v : Nat) : ChoiceMap :=
  fun k2 => if k2 = k then v else cm k2

/-- Split a character list at every occurrence of `sep`
(the field structure `strings`-style splitting used below to model the
address parsers; `splitChar sep cs` is never empty). -/
def splitChar (sep : Char) : List Char → List (List Char)
  | [] => [[]]
  | c :: cs =>
    let r := splitChar sep cs
    if c = sep then [] :: r else (c :: r.headI) :: r.tail

/-- The numeric value of a decimal digit string. -/
def digitsToNat (cs : List Char) : Nat :=
  cs.foldl (fun acc c => acc * 10 + (c.toNat - 48)) 0

/-- One dotted-decimal IPv4 field as Go's `net.ParseIP` accepts it:
non-empty, decimal digits only, value at most 255, no leading zero. -/
def validV4Field : List Char → Bool
  | [] => false
  | c :: rest =>
    (c :: rest).all Char.isDigit && decide (digitsToNat (c :: rest) ≤ 255) &&
      (rest.isEmpty || !(c = '0'))

/-- Dotted-decimal IPv4 syntax: exactly four valid fields. -/
def isIPv4 (cs : List Char) : Bool :=
  let fs := splitChar '.' cs
  fs.length = 4 && fs.all validV4Field

/-- A character admissible inside an IPv6 group: a hexadecimal digit. -/
def isHexChar (c : Char) : Bool :=
  c.isDigit || (decide ('a' ≤ c) && decide (c ≤ 'f')) ||
    (decide ('A' ≤ c) && decide (c ≤ 'F'))

/-- One IPv6 group: one to four hexadecimal digits. -/
def validV6Group (cs : List Char) : Bool :=
  decide (1 ≤ cs.length) && decide (cs.length ≤ 4) && cs.all isHexChar

/-- Split a character list at the first occurrence of a double colon,
returning the parts before and after it, or `none` when absent. -/
def splitDoubleColon : List Char → Option (List Char × List Char)
  | [] => none
  | [_] => none
  | c :: c2 :: cs =>
    if c = ':' ∧ c2 = ':' then some ([], cs)
    else
      match splitDoubleColon (c2 :: cs) with
      | some (l, r) => some (c :: l, r)
      | none => none

/-- Every group of the list is a hexadecimal IPv6 group. -/
def hexGroups (gs : List (List Char)) : Bool :=
  gs.all validV6Group

/-- The number of 16-bit groups contributed by a colon-split chunk list
that ends the address: plain hexadecimal groups count one each, and the
final group may instead be a dotted-decimal IPv4 quad counting as two
(Go's parser accepts an embedded IPv4 tail such as in "::ffff:1.2.3.4");
`none` when the chunk list is not of this shape. -/
def v6TailCount : List (List Char) → Option Nat
  | [] => none
  | [g] => if validV6Group g then some 1 else if isIPv4 g then some 2 else none
  | g :: g2 :: gs =>
    if validV6Group g then
      match v6TailCount (g2 :: gs) with
      | some n => some (n + 1)
      | none => none
    else none

/-- Colon-separated IPv6 syntax: exactly eight groups (an embedded IPv4
tail counting as two), or a single double colon abbreviating at least one
zero group, with at most seven explicit groups around it. -/
def isIPv6 (cs : List Char) : Bool :=
  match splitDoubleColon cs with
  | none =>
    (match v6TailCount (splitChar ':' cs) with
     | some n => decide (n = 8)
     | none => false)
  | some (l, r) =>
    (splitDoubleColon r).isNone &&
      (l.isEmpty || hexGroups (splitChar ':' l)) &&
      (match (if r.isEmpty then some 0 else v6TailCount (splitChar ':' r)) with
       | some nr =>
         decide ((if l.isEmpty then 0 else (splitChar ':' l).length) + nr ≤ 7)
       | none => false)

/-- Models the external Go standard-library function `net.ParseIP`
(src/main.go line 76 checks its result against nil): the first period or
colon in the string decides the address family, and the string must then
parse as an address of that family.  Returns `true` when `net.ParseIP`
would return a non-nil address. -/
def goParseIPOk (s : String) : Bool :=
  match s.toList.find? (fun c => c = '.' || c = ':') with
  | none => false
  | some c => if c = '.' then isIPv4 s.toList else isIPv6 s.toList

/-- A character acceptable in a zone-file token handed to `dns.NewRR`:
hexadecimal digits and the alphanumeric, period, colon, hyphen and
underscore characters that DNS names and address literals are built from. -/
def tokenChar (c : Char) : Bool :=
  isHexChar c || c.isAlphanum || c = '.' || c = ':' || c = '-' || c = '_'

/-- A non-empty token of acceptable characters. -/
def validTok (s : String) : Bool :=
  !s.toList.isEmpty && s.toList.all tokenChar

/-- Models the external miekg/dns function `NewRR` applied to the
zone-format string `"<owner> <type> <rdata>"` built by the handler's
`fmt.Sprintf` calls.  The owner name and the data must be well-formed
tokens (failing e.g. on the empty stripped target of the bare queried
name `"cname."`), and the zone parser enforces the record type's address
family on the data: an A record needs a `net.ParseIP`-accepted address
that contains no colon (setA: "IPv4 addresses cannot include ':'"), an
AAAA record one that contains a colon (setAAAA); name-valued types such
as CNAME and NS carry no family check. -/
def newRR (owner rtype rdata : String) : Option RR :=
  if validTok owner && validTok rdata then
    if rtype = "A" then
      (if goParseIPOk rdata && !rdata.toList.contains ':' then some ⟨owner, rtype, rdata⟩
       else none)
    else if rtype = "AAAA" then
      (if goParseIPOk rdata && rdata.toList.contains ':' then some ⟨owner, rtype, rdata⟩
       else none)
    else some ⟨owner, rtype, rdata⟩
  else none

/-- Whether the queried name carries the CNAME-indicator tag
(src/main.go line 38, `strings.HasPrefix(q.Name, "cname.")`). -/
def hasCnameTag (s : String) : Bool :=
  match s.toList with
  | 'c' :: 'n' :: 'a' :: 'm' :: 'e' :: '.' :: _ => true
  | _ => false

/-- Strip the CNAME-indicator tag when present
(src/main.go lines 40 and 72, `strings.TrimPrefix(q.Name, "cname.")`). -/
def trimCnameTag (s : String) : String :=
  if hasCnameTag s then String.mk (s.toList.drop 6) else s

/-- Models miekg/dns `Msg.SetReply` (src/main.go line 23): copies the
opcode, marks the message a response, and copies at most the first
question of the request; all record sections start empty and the
authoritative flag starts unset. -/
def setReply (r : Msg) : Msg :=
  { opcode := r.opcode
    question := r.question.take 1
    answer := []
    ns := []
    authoritative := false
    compress := r.compress
    response := true }

/-- The answer-set selection switch (src/main.go lines 47-65): for an A
query, the CNAME-targeted A set when the query is a CNAME probe and that
set is non-empty, otherwise the plain A set; symmetrically for AAAA; an
empty set for every other query type. -/
def selectAnswers (records : Records) (cname : Bool) (qtype : Nat) : List String :=
  if qtype = typeA then
    (if cname && records.CNAMEA.length > 0 then records.CNAMEA else records.A)
  else if qtype = typeAAAA then
    (if cname && records.CNAMEAAAA.length > 0 then records.CNAMEAAAA else records.AAAA)
  else []

/-- The textual record type the switch assigns (src/main.go lines 54, 63):
`"A"`, `"AAAA"`, or the initial empty string for other query types. -/
def queryTypeOf (qtype : Nat) : String :=
  if qtype = typeA then "A" else if qtype = typeAAAA then "AAAA" else ""

/-- The delay the switch assigns (src/main.go lines 55, 64): the A delay,
the AAAA delay, or the initial zero duration for other query types.  The
sleep has no effect on the reply's content. -/
def delayOf (cfg : Config) (qtype : Nat) : Nat :=
  if qtype = typeA then cfg.aDelay else if qtype = typeAAAA then cfg.aaaaDelay else 0

/-- The answer-building loop (src/main.go lines 74-85): for each
configured address string in order, skip it when `net.ParseIP` rejects it,
skip it when `dns.NewRR` fails, and otherwise append the record. -/
def buildAnswers (d queryType : String) (answers : List String) : List RR :=
  answers.filterMap (fun ip =>
    if goParseIPOk ip then newRR d queryType ip else none)

/-- The Go panic message of an out-of-range slice index. -/
def indexErr : String := "runtime error: index out of range"

/-- One iteration of the question loop (src/main.go lines 32-94), acting
on the answer list accumulated so far and on the counter map.  The
alternation step (lines 87-93) first increments the name's counter and
then keeps the single already-appended answer at index `counter % 2`; an
out-of-range index is a Go runtime panic, returned as `Except.error`
together with the counter map as mutated before the panic. -/
def handleQuestion (cfg : Config) (q : Question) (ans0 : List RR) (cm : ChoiceMap) :
    Except String (List RR) × ChoiceMap :=
  let cname := hasCnameTag q.name
  let ans1 :=
    if cname then
      match newRR q.name "CNAME" (trimCnameTag q.name) with
      | some rr => ans0 ++ [rr]
      | none => ans0
    else ans0
  let answers := selectAnswers cfg.records cname q.qtype
  let queryType := queryTypeOf q.qtype
  if answers.length > 0 then
    let d := if cname then trimCnameTag q.name else q.name
    let ans2 := ans1 ++ buildAnswers d queryType answers
    if cfg.alternateRecords then
      let cnt := cm q.name + 1
      let cm2 := updateCM cm q.name cnt
      match ans2.get? (cnt % 2) with
      | some rr => (Except.ok [rr], cm2)
      | none => (Except.error indexErr, cm2)
    else
      (Except.ok ans2, cm)
  else
    (Except.ok ans1, cm)

/-- The question loop (src/main.go line 32), threading the answer list and
the counter map through the questions; a panic aborts the loop. -/
def handleQuestions (cfg : Config) :
    List Question → List RR → ChoiceMap → Except String (List RR) × ChoiceMap
  | [], ans, cm => (Except.ok ans, cm)
  | q :: qs, ans, cm =>
    match handleQuestion cfg q ans cm with
    | (Except.ok ans2, cm2) => handleQuestions cfg qs ans2 cm2
    | (Except.error e, cm2) => (Except.error e, cm2)

/-- What one handler invocation does to the outside world: write exactly
one reply message, or abort on a Go runtime panic without replying. -/
inductive HandlerOutcome where
  | reply (m : Msg)
  | panic (e : String)
deriving DecidableEq

/-- Whether the invocation wrote a reply. -/
def HandlerOutcome.isReply : HandlerOutcome → Bool
  | .reply _ => true
  | .panic _ => false

/-- The authority records appended by src/main.go lines 97-102: one NS
record naming `auth` for the owner name `nm` when `dns.NewRR` succeeds,
none when construction fails (the failure is logged and skipped). -/
def nsRecords (nm auth : String) : List RR :=
  match newRR nm "NS" auth with
  | some rr => [rr]
  | none => []

/-- The handler returned by `newDNSHandler` (src/main.go lines 21-110)
applied to one inbound message `r`, starting from counter map `cm0`:

* build the reply skeleton with `SetReply` and disable compression;
* a non-query opcode is answered immediately with the otherwise-empty,
  non-authoritative skeleton;
* otherwise run the question loop, then, when a non-empty authority
  hostname is configured, append one NS record for the first question's
  name (indexing `m.Question[0]`, a panic when the question section is
  empty; a failed NS construction is skipped), set the authoritative
  flag, and write the reply. -/
def handle (cfg : Config) (cm0 : ChoiceMap) (r : Msg) : HandlerOutcome × ChoiceMap :=
  let m := { setReply r with compress := false }
  if r.opcode ≠ opcodeQuery then
    (HandlerOutcome.reply m, cm0)
  else
    match handleQuestions cfg m.question m.answer cm0 with
    | (Except.error e, cm1) => (HandlerOutcome.panic e, cm1)
    | (Except.ok ans, cm1) =>
      if cfg.authority = "" then
        (HandlerOutcome.reply { m with answer := ans, authoritative := true }, cm1)
      else
        match m.question with
        | [] => (HandlerOutcome.panic indexErr, cm1)
        | q0 :: _ =>
          (HandlerOutcome.reply
            { m with
                answer := ans
                ns := m.ns ++ nsRecords q0.name cfg.authority
                authoritative := true }, cm1)

/-- A single-question inbound message with the standard query opcode. -/
def queryMsg (nm : String) (qt : Nat) : Msg :=
  { opcode := opcodeQuery
    question := [{ name := nm, qtype := qt }]
    answer := []
    ns := []
    authoritative := false
    compress := false
    response := false }

/-- A configuration with the given answer sets, alternation flag and
authority hostname, and zero delays. -/
def mkConfig (recs : Records) (alt : Bool) (auth : String) : Config :=
  { records := recs, aDelay := 0, aaaaDelay := 0, authority := auth,
    alternateRecords := alt }

/-- The reply the handler writes for a single-question standard query when
no authority hostname is configured: the given answers, an empty authority
section, the authoritative flag set and compression disabled. -/
def plainReply (nm : String) (qt : Nat) (ans : List RR) : Msg :=
  { opcode := opcodeQuery
    question := [{ name := nm, qtype := qt }]
    answer := ans
    ns := []
    authoritative := true
    compress := false
    response := true }

/-! ## Support lemmas about the address-syntax model -/

lemma splitChar_ne_nil (sep : Char) (cs : List Char) : splitChar sep cs ≠ [] := by
  cases cs with
  | nil => simp [splitChar]
  | cons c cs =>
    simp only [splitChar]
    split <;> simp

lemma mem_splitChar {sep c : Char} {cs : List Char} (hc : c ∈ cs) :
    c = sep ∨ ∃ g, g ∈ splitChar sep cs ∧ c ∈ g := by
  induction cs with
  | nil => cases hc
  | cons c0 cs ih =>
    rcases List.mem_cons.mp hc with h | h
    · subst h
      by_cases he : c = sep
      · exact Or.inl he
      · refine Or.inr ⟨c :: (splitChar sep cs).headI, ?_, List.mem_cons_self _ _⟩
        simp [splitChar, he]
    · rcases ih h with he | ⟨g, hg, hcg⟩
      · exact Or.inl he
      · by_cases he0 : c0 = sep
        · exact Or.inr ⟨g, by simp [splitChar, he0, hg], hcg⟩
        · rcases hr : splitChar sep cs with _ | ⟨g0, gs⟩
          · exact absurd hr (splitChar_ne_nil sep cs)
          · rw [hr] at hg
            rcases List.mem_cons.mp hg with hgg | hgg
            · subst hgg
              exact Or.inr ⟨c0 :: g, by simp [splitChar, he0, hr], List.mem_cons_of_mem _ hcg⟩
            · exact Or.inr ⟨g, by simp [splitChar, he0, hr, hgg], hcg⟩

lemma validV4Field_digits {g : List Char} (h : validV4Field g = true) :
    ∀ c ∈ g, c.isDigit = true := by
  cases g with
  | nil => simp [validV4Field] at h
  | cons c0 rest =>
    simp only [validV4Field, Bool.and_eq_true, List.all_eq_true] at h
    exact h.1.1

lemma validV6Group_hex {g : List Char} (h : validV6Group g = true) :
    ∀ c ∈ g, isHexChar c = true := by
  simp only [validV6Group, Bool.and_eq_true, List.all_eq_true] at h
  exact h.2

lemma tokenChar_of_digit {c : Char} (h : c.isDigit = true) : tokenChar c = true := by
  simp [tokenChar, isHexChar, h]

lemma tokenChar_of_hex {c : Char} (h : isHexChar c = true) : tokenChar c = true := by
  simp [tokenChar, h]

lemma isIPv4_chars {cs : List Char} (h : isIPv4 cs = true) :
    ∀ c ∈ cs, tokenChar c = true := by
  simp only [isIPv4, Bool.and_eq_true, List.all_eq_true, decide_eq_true_eq] at h
  intro c hc
  rcases @mem_splitChar '.' _ _ hc with he | ⟨g, hg, hcg⟩
  · subst he; decide
  · exact tokenChar_of_digit (validV4Field_digits (h.2 g hg) c hcg)

lemma splitDoubleColon_append : ∀ (cs l r : List Char),
    splitDoubleColon cs = some (l, r) → cs = l ++ ':' :: ':' :: r := by
  intro cs
  induction cs with
  | nil => intro l r h; simp [splitDoubleColon] at h
  | cons c cs ih =>
    intro l r h
    cases cs with
    | nil => simp [splitDoubleColon] at h
    | cons c2 cs2 =>
      rw [splitDoubleColon] at h
      split at h
      · rename_i hcc
        obtain ⟨h1, h2⟩ := hcc
        obtain ⟨hl, hr⟩ := Prod.mk.injEq .. ▸ Option.some.injEq .. ▸ h
        subst h1; subst h2
        simp_all
      · split at h
        · rename_i l2 r2 heq
          obtain ⟨hl, hr⟩ := Prod.mk.injEq .. ▸ Option.some.injEq .. ▸ h
          subst hl; subst hr
          simpa using ih _ _ heq
        · cases h

lemma v6TailCount_chars : ∀ (gs : List (List Char)) (n : Nat),
    v6TailCount gs = some n → ∀ g ∈ gs, ∀ c ∈ g, tokenChar c = true := by
  intro gs
  induction gs with
  | nil => intro n h; simp [v6TailCount] at h
  | cons g0 gs ih =>
    intro n h g hg c hc
    cases gs with
    | nil =>
      simp only [List.mem_singleton] at hg
      subst hg
      unfold v6TailCount at h
      by_cases h1 : validV6Group g = true
      · exact tokenChar_of_hex (validV6Group_hex h1 c hc)
      · rw [if_neg h1] at h
        by_cases h2 : isIPv4 g = true
        · exact isIPv4_chars h2 c hc
        · rw [if_neg h2] at h; cases h
    | cons g2 gs2 =>
      unfold v6TailCount at h
      by_cases h1 : validV6Group g0 = true
      · rcases List.mem_cons.mp hg with he | hg2
        · subst he
          exact tokenChar_of_hex (validV6Group_hex h1 c hc)
        · rw [if_pos h1] at h
          cases ht : v6TailCount (g2 :: gs2) with
          | none => rw [ht] at h; cases h
          | some k => exact ih k ht g hg2 c hc
      · rw [if_neg h1] at h; cases h

lemma isIPv6_chars {cs : List Char} (h : isIPv6 cs = true) :
    ∀ c ∈ cs, tokenChar c = true := by
  unfold isIPv6 at h
  cases hd : splitDoubleColon cs with
  | none =>
    rw [hd] at h
    cases ht : v6TailCount (splitChar ':' cs) with
    | none => rw [ht] at h; cases h
    | some n =>
      intro c hc
      rcases @mem_splitChar ':' _ _ hc with he | ⟨g, hg, hcg⟩
      · subst he; decide
      · exact v6TailCount_chars _ n ht g hg c hcg
  | some p =>
    obtain ⟨l, r⟩ := p
    rw [hd] at h
    simp only [Bool.and_eq_true, Bool.or_eq_true] at h
    have hcs := splitDoubleColon_append cs l r hd
    intro c hc
    rw [hcs] at hc
    rcases List.mem_append.mp hc with hcl | hcr
    · have hne : ¬ l.isEmpty = true := by
        cases l with
        | nil => cases hcl
        | cons a as => simp
      have hall : ∀ g ∈ splitChar ':' l, validV6Group g = true := by
        rcases h.1.2 with hemp | hall
        · exact absurd hemp hne
        · simpa [hexGroups, List.all_eq_true] using hall
      rcases @mem_splitChar ':' _ _ hcl with he | ⟨g, hg, hcg⟩
      · subst he; decide
      · exact tokenChar_of_hex (validV6Group_hex (hall g hg) c hcg)
    · rcases List.mem_cons.mp hcr with he | hcr2
      · subst he; decide
      · rcases List.mem_cons.mp hcr2 with he | hcr3
        · subst he; decide
        · have hne : r.isEmpty = false := by
            cases r with
            | nil => cases hcr3
            | cons a as => simp
          have h2 := h.2
          rw [hne] at h2
          simp only [Bool.false_eq_true, if_false] at h2
          cases ht : v6TailCount (splitChar ':' r) with
          | none => rw [ht] at h2; cases h2
          | some nr =>
            rcases @mem_splitChar ':' _ _ hcr3 with he | ⟨g, hg, hcg⟩
            · subst he; decide
            · exact v6TailCount_chars _ nr ht g hg c hcg

/-- Every string `net.ParseIP` accepts is a well-formed zone-file token,
so `dns.NewRR` succeeds on the records the answer builder constructs. -/
lemma goParseIPOk_validTok {s : String} (h : goParseIPOk s = true) : validTok s = true := by
  unfold goParseIPOk at h
  cases hf : s.toList.find? (fun c => c = '.' || c = ':') with
  | none => rw [hf] at h; cases h
  | some c =>
    rw [hf] at h
    have hmem : c ∈ s.toList := List.mem_of_find?_eq_some hf
    have hne : ¬ s.toList.isEmpty = true := by
      cases hl : s.toList with
      | nil => rw [hl] at hmem; cases hmem
      | cons a as => simp
    dsimp only at h
    have hchars : ∀ c2 ∈ s.toList, tokenChar c2 = true := by
      by_cases hc : c = '.'
      · rw [if_pos hc] at h
        exact isIPv4_chars h
      · rw [if_neg hc] at h
        exact isIPv6_chars h
    simp only [validTok, Bool.and_eq_true, Bool.not_eq_true', List.all_eq_true]
    exact ⟨by simpa using hne, hchars⟩

lemma newRR_A (d ip : String) (hd : validTok d = true) (hip : goParseIPOk ip = true)
    (hc : ip.toList.contains ':' = false) :
    newRR d "A" ip = some ⟨d, "A", ip⟩ := by
  have hc2 : ':' ∉ ip.data := by simpa using hc
  simp [newRR, hd, goParseIPOk_validTok hip, hip, hc2]

/-- With a well-formed owner name, the A answer builder keeps exactly the
configured addresses that `net.ParseIP` accepts and that pass the zone
parser's IPv4-family check (no colon), in configured order. -/
lemma buildAnswers_A_eq (d : String) (hd : validTok d = true) (as : List String) :
    buildAnswers d "A" as =
      (as.filter (fun ip => goParseIPOk ip && !ip.toList.contains ':')).map
        (fun ip => RR.mk d "A" ip) := by
  induction as with
  | nil => rfl
  | cons a as ih =>
    simp only [buildAnswers] at ih ⊢
    rw [List.filterMap_cons, List.filter_cons]
    by_cases ha : goParseIPOk a = true
    · by_cases hcol : ':' ∈ a.data
      · have hrr : newRR d "A" a = none := by
          simp [newRR, hd, goParseIPOk_validTok ha, ha, hcol]
        simp [ha, hrr, hcol, ih]
      · have hrr : newRR d "A" a = some ⟨d, "A", a⟩ := by
          simp [newRR, hd, goParseIPOk_validTok ha, ha, hcol]
        simp [ha, hrr, hcol, ih]
    · simp [ha, ih]

/-! ## Support lemmas about the handler -/

lemma selectAnswers_plain_A (recs : Records) : selectAnswers recs false typeA = recs.A := by
  simp [selectAnswers]

lemma queryTypeOf_A : queryTypeOf typeA = "A" := by
  simp [queryTypeOf]

/-- One question-loop iteration for a direct (non-tagged) A question,
fully unfolded. -/
lemma handleQuestion_plain_A (cfg : Config) (nm : String) (ans0 : List RR) (cm : ChoiceMap)
    (htag : hasCnameTag nm = false) :
    handleQuestion cfg ⟨nm, typeA⟩ ans0 cm =
      (if cfg.records.A.length > 0 then
        (if cfg.alternateRecords then
          (match (ans0 ++ buildAnswers nm "A" cfg.records.A).get? ((cm nm + 1) % 2) with
            | some rr => (Except.ok [rr], updateCM cm nm (cm nm + 1))
            | none => (Except.error indexErr, updateCM cm nm (cm nm + 1)))
        else (Except.ok (ans0 ++ buildAnswers nm "A" cfg.records.A), cm))
      else (Except.ok ans0, cm)) := by
  unfold handleQuestion
  simp only [htag, Bool.false_eq_true, if_false, selectAnswers_plain_A, queryTypeOf_A]

/-- With alternation disabled a question-loop iteration never panics and
never touches the counter map. -/
lemma handleQuestion_not_alternate (cfg : Config) (q : Question) (ans0 : List RR)
    (cm : ChoiceMap) (halt : cfg.alternateRecords = false) :
    ∃ ans2, handleQuestion cfg q ans0 cm = (Except.ok ans2, cm) := by
  unfold handleQuestion
  simp only [halt, Bool.false_eq_true, if_false]
  split
  · exact ⟨_, rfl⟩
  · exact ⟨_, rfl⟩

/-- With alternation disabled the whole question loop never panics and
never touches the counter map. -/
lemma handleQuestions_not_alternate (cfg : Config) (qs : List Question) (ans0 : List RR)
    (cm : ChoiceMap) (halt : cfg.alternateRecords = false) :
    ∃ ans2, handleQuestions cfg qs ans0 cm = (Except.ok ans2, cm) := by
  induction qs generalizing ans0 with
  | nil => exact ⟨ans0, rfl⟩
  | cons q qs ih =>
    obtain ⟨a1, h1⟩ := handleQuestion_not_alternate cfg q ans0 cm halt
    obtain ⟨a2, h2⟩ := ih a1
    exact ⟨a2, by simp only [handleQuestions, h1]; exact h2⟩

/-- The handler on a single-question standard query whose question-loop
iteration succeeds: the reply carries the built answers, the authority
records when configured, and the authoritative flag. -/
lemma handle_queryMsg (cfg : Config) (cm : ChoiceMap) (nm : String) (qt : Nat)
    (ans : List RR) (cm1 : ChoiceMap)
    (hq : handleQuestion cfg ⟨nm, qt⟩ [] cm = (Except.ok ans, cm1)) :
    handle cfg cm (queryMsg nm qt) =
      (HandlerOutcome.reply
        { opcode := opcodeQuery, question := [⟨nm, qt⟩], answer := ans,
          ns := if cfg.authority = "" then [] else nsRecords nm cfg.authority,
          authoritative := true, compress := false, response := true }, cm1) := by
  unfold handle
  simp only [queryMsg, setReply, List.take, ne_eq, not_true_eq_false, if_false,
    handleQuestions, hq]
  by_cases ha : cfg.authority = "" <;> simp [ha]

/-- The handler on a single-question standard query whose question-loop
iteration panics: no reply is written. -/
lemma handle_queryMsg_panic (cfg : Config) (cm : ChoiceMap) (nm : String) (qt : Nat)
    (e : String) (cm1 : ChoiceMap)
    (hq : handleQuestion cfg ⟨nm, qt⟩ [] cm = (Except.error e, cm1)) :
    handle cfg cm (queryMsg nm qt) = (HandlerOutcome.panic e, cm1) := by
  unfold handle
  simp only [queryMsg, setReply, List.take, ne_eq, not_true_eq_false, if_false,
    handleQuestions, hq]

/-! ## Claim C6 -/

/-- C6: for every inbound message whose opcode is not the standard query
opcode, the handler does not crash and replies with a message whose answer
section is empty and whose authoritative flag is unset. -/
theorem C6_non_query_opcode (cfg : Config) (cm : ChoiceMap) (r : Msg)
    (hop : r.opcode ≠ opcodeQuery) :
    (handle cfg cm r).1.isReply = true ∧
      ∀ m, (handle cfg cm r).1 = HandlerOutcome.reply m →
        m.answer = [] ∧ m.authoritative = false := by
  unfold handle
  simp only [hop, ne_eq, not_false_eq_true, if_true]
  refine ⟨rfl, ?_⟩
  intro m hm
  cases hm
  exact ⟨rfl, rfl⟩

/-- C6 witness: a dynamic-update message (opcode 5) is answered with an
empty, non-authoritative reply. -/
theorem C6_non_query_opcode_witness :
    (handle (mkConfig ⟨["1.2.3.4"], [], [], []⟩ true "ns1.example.com.") emptyChoiceMap
        { opcode := 5, question := [⟨"x.", typeA⟩], answer := [], ns := [],
          authoritative := false, compress := false, response := false }).1 =
      HandlerOutcome.reply
        { opcode := 5, question := [⟨"x.", typeA⟩], answer := [], ns := [],
          authoritative := false, compress := false, response := true } ∧
    ([] : List RR) = [] ∧ false = false :=
  ⟨by rfl,
    C6_non_query_opcode (mkConfig ⟨["1.2.3.4"], [], [], []⟩ true "ns1.example.com.")
      emptyChoiceMap
      { opcode := 5, question := [⟨"x.", typeA⟩], answer := [], ns := [],
        authoritative := false, compress := false, response := false }
      (by decide) |>.2
      { opcode := 5, question := [⟨"x.", typeA⟩], answer := [], ns := [],
        authoritative := false, compress := false, response := true }
      (by rfl)⟩

/-! ## Claim C8 -/

/-- C8: for an A (respectively AAAA) query, the answer set selected is the
CNAME-targeted A (respectively AAAA) set when the query carries the
"cname." tag and that set is non-empty, otherwise the plain set; a query
without the tag always selects the plain set. -/
theorem C8_answer_set_selection (recs : Records) :
    (selectAnswers recs true typeA =
      (if recs.CNAMEA.length > 0 then recs.CNAMEA else recs.A)) ∧
    (selectAnswers recs true typeAAAA =
      (if recs.CNAMEAAAA.length > 0 then recs.CNAMEAAAA else recs.AAAA)) ∧
    (selectAnswers recs false typeA = recs.A) ∧
    (selectAnswers recs false typeAAAA = recs.AAAA) := by
  refine ⟨?_, ?_, ?_, ?_⟩ <;> simp [selectAnswers, typeA, typeAAAA]

/-! ## Claim C9 -/

/-- C9: a standard-query message with an empty question section makes the
handler index the first element of the empty question list when a
non-empty authority hostname is configured, panicking instead of
replying; with no authority configured the same message is answered,
the question loop simply running zero times. -/
theorem C9_empty_question (cfg : Config) (cm : ChoiceMap) (r : Msg)
    (hop : r.opcode = opcodeQuery) (hq : r.question = []) :
    (cfg.authority ≠ "" →
      (handle cfg cm r).1 = HandlerOutcome.panic indexErr) ∧
    (cfg.authority = "" →
      (handle cfg cm r).1 = HandlerOutcome.reply
        { opcode := r.opcode, question := [], answer := [], ns := [],
          authoritative := true, compress := false, response := true }) := by
  unfold handle
  simp only [hop, ne_eq, not_true_eq_false, if_false, hq, List.take_nil, handleQuestions,
    setReply]
  constructor
  · intro ha
    simp [ha]
  · intro ha
    simp [ha]

/-- C9 witness: with authority "ns1.example.com." an empty-question query
panics with the index error. -/
theorem C9_empty_question_witness :
    (handle (mkConfig ⟨[], [], [], []⟩ false "ns1.example.com.") emptyChoiceMap
        { opcode := 0, question := [], answer := [], ns := [], authoritative := false,
          compress := false, response := false }).1 = HandlerOutcome.panic indexErr :=
  (C9_empty_question (mkConfig ⟨[], [], [], []⟩ false "ns1.example.com.") emptyChoiceMap
      { opcode := 0, question := [], answer := [], ns := [], authoritative := false,
        compress := false, response := false }
      (by rfl) (by rfl)).1 (by decide)

/-! ## Claim C1 -/

/-- C1 counterexample: with alternation enabled and the two valid A
addresses "1.2.3.4" and "5.6.7.8" configured, the FIRST query for the
fresh name "example.com." already returns the second configured address
and not the first — the handler increments the name's counter before
selecting, so the first selection happens at counter 1 (odd parity). -/
theorem C1_counterexample :
    (handle (mkConfig ⟨["1.2.3.4", "5.6.7.8"], [], [], []⟩ true "") emptyChoiceMap
        (queryMsg "example.com." typeA)).1 =
      HandlerOutcome.reply
        (plainReply "example.com." typeA [⟨"example.com.", "A", "5.6.7.8"⟩]) ∧
    (RR.mk "example.com." "A" "5.6.7.8") ≠ (RR.mk "example.com." "A" "1.2.3.4") :=
  ⟨by rfl, by decide⟩

/-- C1 (amended): with alternation enabled and exactly two syntactically
valid A addresses configured, for every direct (non-"cname."-tagged) name
whose counter starts at zero, the first query returns only the SECOND
configured address, the second query only the first, and the third the
second again: the counter is incremented BEFORE selection, so the kept
record is the one at index (counter+1) mod 2 — odd incremented counters
select the second candidate and even incremented counters the first. -/
theorem C1_alternation_order (nm a1 a2 : String) (cm : ChoiceMap)
    (htag : hasCnameTag nm = false) (hname : validTok nm = true)
    (h1 : goParseIPOk a1 = true) (h2 : goParseIPOk a2 = true)
    (hc1 : a1.toList.contains ':' = false) (hc2 : a2.toList.contains ':' = false)
    (hcm : cm nm = 0) :
    (handle (mkConfig ⟨[a1, a2], [], [], []⟩ true "") cm (queryMsg nm typeA)).1 =
      HandlerOutcome.reply (plainReply nm typeA [⟨nm, "A", a2⟩]) ∧
    (handle (mkConfig ⟨[a1, a2], [], [], []⟩ true "")
        (handle (mkConfig ⟨[a1, a2], [], [], []⟩ true "") cm (queryMsg nm typeA)).2
        (queryMsg nm typeA)).1 =
      HandlerOutcome.reply (plainReply nm typeA [⟨nm, "A", a1⟩]) ∧
    (handle (mkConfig ⟨[a1, a2], [], [], []⟩ true "")
        (handle (mkConfig ⟨[a1, a2], [], [], []⟩ true "")
          (handle (mkConfig ⟨[a1, a2], [], [], []⟩ true "") cm (queryMsg nm typeA)).2
          (queryMsg nm typeA)).2
        (queryMsg nm typeA)).1 =
      HandlerOutcome.reply (plainReply nm typeA [⟨nm, "A", a2⟩]) := by
  have hb : buildAnswers nm "A" [a1, a2] = [⟨nm, "A", a1⟩, ⟨nm, "A", a2⟩] := by
    have hm1 : ':' ∉ a1.data := by simpa using hc1
    have hm2 : ':' ∉ a2.data := by simpa using hc2
    rw [buildAnswers_A_eq nm hname]
    simp [h1, h2, hm1, hm2]
  have hq1 : handleQuestion (mkConfig ⟨[a1, a2], [], [], []⟩ true "") ⟨nm, typeA⟩ []
      (cm) = (Except.ok [⟨nm, "A", a2⟩], updateCM cm nm 1) := by
    rw [handleQuestion_plain_A _ _ _ _ htag]
    simp [mkConfig, hb, hcm]
  have e1 := handle_queryMsg _ cm nm typeA _ _ hq1
  have hcm1 : updateCM cm nm 1 nm = 1 := by simp [updateCM]
  have hq2 : handleQuestion (mkConfig ⟨[a1, a2], [], [], []⟩ true "") ⟨nm, typeA⟩ []
      (updateCM cm nm 1) =
      (Except.ok [⟨nm, "A", a1⟩], updateCM (updateCM cm nm 1) nm 2) := by
    rw [handleQuestion_plain_A _ _ _ _ htag]
    simp [mkConfig, hb, hcm1]
  have e2 := handle_queryMsg _ (updateCM cm nm 1) nm typeA _ _ hq2
  have hcm2 : updateCM (updateCM cm nm 1) nm 2 nm = 2 := by simp [updateCM]
  have hq3 : handleQuestion (mkConfig ⟨[a1, a2], [], [], []⟩ true "") ⟨nm, typeA⟩ []
      (updateCM (updateCM cm nm 1) nm 2) =
      (Except.ok [⟨nm, "A", a2⟩],
        updateCM (updateCM (updateCM cm nm 1) nm 2) nm 3) := by
    rw [handleQuestion_plain_A _ _ _ _ htag]
    simp [mkConfig, hb, hcm2]
  have e3 := handle_queryMsg _ (updateCM (updateCM cm nm 1) nm 2) nm typeA _ _ hq3
  have s1 : (handle (mkConfig ⟨[a1, a2], [], [], []⟩ true "") cm (queryMsg nm typeA)).2 =
      updateCM cm nm 1 := by rw [e1]
  have s2 : (handle (mkConfig ⟨[a1, a2], [], [], []⟩ true "") (updateCM cm nm 1)
      (queryMsg nm typeA)).2 = updateCM (updateCM cm nm 1) nm 2 := by rw [e2]
  refine ⟨?_, ?_, ?_⟩
  · rw [e1]
    simp [mkConfig, plainReply]
  · rw [s1, e2]
    simp [mkConfig, plainReply]
  · rw [s1, s2, e3]
    simp [mkConfig, plainReply]

/-- C1 witness: the amended alternation order at the concrete
configuration ["1.2.3.4", "5.6.7.8"] and the fresh name "example.com.". -/
theorem C1_alternation_order_witness :
    (handle (mkConfig ⟨["1.2.3.4", "5.6.7.8"], [], [], []⟩ true "") emptyChoiceMap
        (queryMsg "example.com." typeA)).1 =
      HandlerOutcome.reply
        (plainReply "example.com." typeA [⟨"example.com.", "A", "5.6.7.8"⟩]) ∧
    (handle (mkConfig ⟨["1.2.3.4", "5.6.7.8"], [], [], []⟩ true "")
        (handle (mkConfig ⟨["1.2.3.4", "5.6.7.8"], [], [], []⟩ true "") emptyChoiceMap
          (queryMsg "example.com." typeA)).2
        (queryMsg "example.com." typeA)).1 =
      HandlerOutcome.reply
        (plainReply "example.com." typeA [⟨"example.com.", "A", "1.2.3.4"⟩]) ∧
    (handle (mkConfig ⟨["1.2.3.4", "5.6.7.8"], [], [], []⟩ true "")
        (handle (mkConfig ⟨["1.2.3.4", "5.6.7.8"], [], [], []⟩ true "")
          (handle (mkConfig ⟨["1.2.3.4", "5.6.7.8"], [], [], []⟩ true "") emptyChoiceMap
            (queryMsg "example.com." typeA)).2
          (queryMsg "example.com." typeA)).2
        (queryMsg "example.com." typeA)).1 =
      HandlerOutcome.reply
        (plainReply "example.com." typeA [⟨"example.com.", "A", "5.6.7.8"⟩]) :=
  C1_alternation_order "example.com." "1.2.3.4" "5.6.7.8" emptyChoiceMap
    (by rfl) (by rfl) (by rfl) (by rfl) (by rfl) (by rfl) (by rfl)

/-! ## Claim C2 -/

/-- C2 counterexample: with alternation enabled and the non-empty
configured A set ["not-an-ip"] whose only entry is invalid, zero answer
records are built, and the alternation step indexes the empty answer list
and panics with an out-of-range index error instead of being a no-op. -/
theorem C2_counterexample :
    (handle (mkConfig ⟨["not-an-ip"], [], [], []⟩ true "") emptyChoiceMap
        (queryMsg "x." typeA)).1 = HandlerOutcome.panic indexErr := by rfl

/-- C2 (amended): for a direct A query with alternation enabled and a
non-empty configured A set from which fewer than two answer records were
built, the alternation step is NOT guarded: it still indexes the built
answers at (counter+1) mod 2, so it leaves the answers unchanged exactly
when that index is in range (one record built, even incremented counter),
and otherwise panics with an out-of-range index error and no reply is
written. -/
theorem C2_alternation_index (nm : String) (as : List String) (cm : ChoiceMap)
    (htag : hasCnameTag nm = false) (has : as ≠ [])
    (hlen : (buildAnswers nm "A" as).length < 2) :
    ((cm nm + 1) % 2 < (buildAnswers nm "A" as).length →
      (handle (mkConfig ⟨as, [], [], []⟩ true "") cm (queryMsg nm typeA)).1 =
        HandlerOutcome.reply (plainReply nm typeA (buildAnswers nm "A" as))) ∧
    ((buildAnswers nm "A" as).length ≤ (cm nm + 1) % 2 →
      (handle (mkConfig ⟨as, [], [], []⟩ true "") cm (queryMsg nm typeA)).1 =
        HandlerOutcome.panic indexErr) := by
  have hpos : 0 < as.length := List.length_pos.mpr has
  constructor
  · intro hidx
    rcases hbb : buildAnswers nm "A" as with _ | ⟨rr, rest⟩
    · rw [hbb] at hidx
      simp at hidx
    · rcases rest with _ | ⟨rr2, rest2⟩
      · have hidx0 : (cm nm + 1) % 2 = 0 := by
          rw [hbb] at hidx
          simpa using Nat.lt_one_iff.mp (by simpa using hidx)
        have hq : handleQuestion (mkConfig ⟨as, [], [], []⟩ true "") ⟨nm, typeA⟩ [] cm =
            (Except.ok [rr], updateCM cm nm (cm nm + 1)) := by
          rw [handleQuestion_plain_A _ _ _ _ htag]
          simp [mkConfig, hbb, hidx0, hpos]
        have e := handle_queryMsg _ cm nm typeA _ _ hq
        rw [e]
        simp [mkConfig, plainReply, hbb]
      · rw [hbb] at hlen
        simp at hlen
        omega
  · intro hidx
    have hget : (buildAnswers nm "A" as)[(cm nm + 1) % 2]? = none :=
      List.getElem?_eq_none hidx
    have hq : handleQuestion (mkConfig ⟨as, [], [], []⟩ true "") ⟨nm, typeA⟩ [] cm =
        (Except.error indexErr, updateCM cm nm (cm nm + 1)) := by
      rw [handleQuestion_plain_A _ _ _ _ htag]
      simp [mkConfig, hpos, hget]
    exact handle_queryMsg_panic _ cm nm typeA _ _ hq ▸ rfl

/-- C2 witness: one valid configured address and a fresh counter — one
record is built, the incremented counter is odd, and the handler panics. -/
theorem C2_alternation_index_witness :
    (handle (mkConfig ⟨["1.2.3.4"], [], [], []⟩ true "") emptyChoiceMap
        (queryMsg "x." typeA)).1 = HandlerOutcome.panic indexErr :=
  (C2_alternation_index "x." ["1.2.3.4"] emptyChoiceMap (by rfl) (by decide)
      (by decide)).2 (by decide)

/-! ## Claim C3 -/

/-- C3 counterexample: with the authority hostname "ns1.example.com."
configured, a standard-query message with an empty question section makes
the handler panic on m.Question[0] — the invocation aborts and no reply
is sent, so per-query errors do not always stay local to the invocation. -/
theorem C3_counterexample :
    (handle (mkConfig ⟨[], [], [], []⟩ false "ns1.example.com.") emptyChoiceMap
        { opcode := 0, question := [], answer := [], ns := [], authoritative := false,
          compress := false, response := false }).1 = HandlerOutcome.panic indexErr := by
  rfl

/-- C3 (amended): the handler completes and sends exactly one reply for
every inbound message and configuration PROVIDED alternation is disabled
and, when a non-empty authority hostname is configured, the message
carries at least one question; outside these conditions the invocation
can abort on an out-of-range index panic without replying (see the
counterexample and claim C2). -/
theorem C3_always_replies (cfg : Config) (cm : ChoiceMap) (r : Msg)
    (halt : cfg.alternateRecords = false)
    (hq : cfg.authority = "" ∨ r.question ≠ []) :
    (handle cfg cm r).1.isReply = true := by
  unfold handle
  by_cases hop : r.opcode = opcodeQuery
  · simp only [hop, ne_eq, not_true_eq_false, if_false, setReply]
    obtain ⟨ans, hok⟩ := handleQuestions_not_alternate cfg (r.question.take 1) [] cm halt
    rw [hok]
    rcases hq with ha | hqn
    · simp [ha, HandlerOutcome.isReply]
    · rcases hr : r.question with _ | ⟨q0, qs⟩
      · exact absurd hr hqn
      · by_cases ha : cfg.authority = "" <;> simp [ha, hr, HandlerOutcome.isReply]
  · simp [hop, HandlerOutcome.isReply]

/-- C3 witness: with alternation disabled, an authority hostname and a
one-question message, the handler writes a reply. -/
theorem C3_always_replies_witness :
    (handle (mkConfig ⟨["1.2.3.4"], [], [], []⟩ false "ns1.example.com.") emptyChoiceMap
        (queryMsg "x." typeA)).1.isReply = true :=
  C3_always_replies (mkConfig ⟨["1.2.3.4"], [], [], []⟩ false "ns1.example.com.")
    emptyChoiceMap (queryMsg "x." typeA) (by rfl) (Or.inr (by decide))

/-! ## Claim C4 -/

/-- C4 counterexample: for the "cname."-tagged A query "cname.x." with
alternation enabled and the single valid CNAME-targeted address
"1.2.3.4", the built answers are [CNAME, A] and the alternation step
keeps only index 1 — the reply's single record is the A record, so the
reply does NOT contain a leading CNAME record. -/
theorem C4_counterexample :
    (handle (mkConfig ⟨[], [], ["1.2.3.4"], []⟩ true "") emptyChoiceMap
        (queryMsg "cname.x." typeA)).1 =
      HandlerOutcome.reply (plainReply "cname.x." typeA [⟨"x.", "A", "1.2.3.4"⟩]) ∧
    (RR.mk "x." "A" "1.2.3.4").rtype ≠ "CNAME" :=
  ⟨by rfl, by decide⟩

/-- A question-loop iteration for a "cname."-tagged query with alternation
disabled leads the answers with the synthesized CNAME record. -/
lemma handleQuestion_cname (cfg : Config) (nm : String) (qt : Nat) (cm : ChoiceMap) (rr : RR)
    (htag : hasCnameTag nm = true) (hrr : newRR nm "CNAME" (trimCnameTag nm) = some rr)
    (halt : cfg.alternateRecords = false) :
    ∃ rest, handleQuestion cfg ⟨nm, qt⟩ [] cm = (Except.ok (rr :: rest), cm) := by
  unfold handleQuestion
  simp only [htag, if_true, hrr, halt, Bool.false_eq_true, if_false, List.nil_append]
  split
  · exact ⟨buildAnswers (trimCnameTag nm) (queryTypeOf qt)
      (selectAnswers cfg.records true qt), by simp⟩
  · exact ⟨[], rfl⟩

/-- C4 (amended): for every query whose name carries the "cname." tag,
regardless of query type, PROVIDED alternation is disabled and the
synthesized record is constructible (the stripped target is a well-formed
token), the reply's answer section has the CNAME record mapping the full
name to the stripped name as its first record; with alternation enabled
the alternation step can replace the whole answer list with a non-CNAME
record (see the counterexample). -/
theorem C4_cname_leading (cfg : Config) (cm : ChoiceMap) (nm : String) (qt : Nat) (rr : RR)
    (htag : hasCnameTag nm = true) (hrr : newRR nm "CNAME" (trimCnameTag nm) = some rr)
    (halt : cfg.alternateRecords = false) :
    (handle cfg cm (queryMsg nm qt)).1.isReply = true ∧
    ∀ m, (handle cfg cm (queryMsg nm qt)).1 = HandlerOutcome.reply m →
      m.answer.head? = some rr := by
  obtain ⟨rest, hq⟩ := handleQuestion_cname cfg nm qt cm rr htag hrr halt
  have e := handle_queryMsg cfg cm nm qt _ _ hq
  rw [e]
  refine ⟨rfl, ?_⟩
  intro m hm
  cases hm
  rfl

/-- C4 witness: the tagged AAAA query "cname.x." with alternation disabled
is answered with the leading CNAME record to "x.". -/
theorem C4_cname_leading_witness :
    (handle (mkConfig ⟨[], [], [], []⟩ false "") emptyChoiceMap
        (queryMsg "cname.x." typeAAAA)).1 =
      HandlerOutcome.reply (plainReply "cname.x." typeAAAA [⟨"cname.x.", "CNAME", "x."⟩]) ∧
    (plainReply "cname.x." typeAAAA [⟨"cname.x.", "CNAME", "x."⟩]).answer.head? =
      some (RR.mk "cname.x." "CNAME" "x.") :=
  ⟨by rfl,
    (C4_cname_leading (mkConfig ⟨[], [], [], []⟩ false "") emptyChoiceMap "cname.x."
        typeAAAA (RR.mk "cname.x." "CNAME" "x.") (by rfl) (by rfl) (by rfl)).2
      (plainReply "cname.x." typeAAAA [⟨"cname.x.", "CNAME", "x."⟩]) (by rfl)⟩

/-! ## Claim C5 -/

/-- C5 counterexample: with the authority hostname "ns1.example.com."
configured, a dynamic-update message (opcode 5) is answered by the early
non-query branch, and that reply carries zero NS records, not exactly
one — the authority record is not appended for every opcode. -/
theorem C5_counterexample :
    (handle (mkConfig ⟨[], [], [], []⟩ false "ns1.example.com.") emptyChoiceMap
        { opcode := 5, question := [⟨"x.", typeA⟩], answer := [], ns := [],
          authoritative := false, compress := false, response := false }).1 =
      HandlerOutcome.reply
        { opcode := 5, question := [⟨"x.", typeA⟩], answer := [], ns := [],
          authoritative := false, compress := false, response := true } ∧
    (Msg.ns { opcode := 5, question := [⟨"x.", typeA⟩], answer := [], ns := [],
              authoritative := false, compress := false, response := true }).length = 0 ∧
    (0 : Nat) ≠ 1 :=
  ⟨by rfl, by rfl, by decide⟩

/-- C5 (amended): when a non-empty authority hostname is configured,
every reply the handler sends for a STANDARD-QUERY message with a
non-empty question section whose NS record is constructible carries
exactly one NS record naming that host for the first question's name;
a non-query opcode is answered by the early branch without the authority
record, and a construction failure is skipped without being fatal. -/
theorem C5_authority_ns (cfg : Config) (cm : ChoiceMap) (r : Msg) (q0 : Question)
    (qs : List Question) (nsrr : RR)
    (hauth : cfg.authority ≠ "") (hop : r.opcode = opcodeQuery)
    (hq : r.question = q0 :: qs)
    (hrr : newRR q0.name "NS" cfg.authority = some nsrr) :
    ∀ m, (handle cfg cm r).1 = HandlerOutcome.reply m → m.ns = [nsrr] := by
  intro m hm
  unfold handle at hm
  simp only [hop, ne_eq, not_true_eq_false, if_false, setReply, hq] at hm
  rcases hres : handleQuestions cfg (List.take 1 (q0 :: qs)) [] cm with ⟨res, cm1⟩
  rw [hres] at hm
  cases res with
  | error e => cases hm
  | ok ans =>
    simp only [if_neg hauth, List.take_succ_cons, List.take_zero] at hm
    cases hm
    simp [nsRecords, hrr]

/-- C5 witness: the authority NS record for a standard A query. -/
theorem C5_authority_ns_witness :
    (handle (mkConfig ⟨[], [], [], []⟩ false "ns1.example.com.") emptyChoiceMap
        (queryMsg "x." typeA)).1 =
      HandlerOutcome.reply
        { opcode := 0, question := [⟨"x.", typeA⟩], answer := [],
          ns := [⟨"x.", "NS", "ns1.example.com."⟩], authoritative := true,
          compress := false, response := true } ∧
    (Msg.ns { opcode := 0, question := [⟨"x.", typeA⟩], answer := [],
              ns := [⟨"x.", "NS", "ns1.example.com."⟩], authoritative := true,
              compress := false, response := true }) = [⟨"x.", "NS", "ns1.example.com."⟩] :=
  ⟨by rfl,
    C5_authority_ns (mkConfig ⟨[], [], [], []⟩ false "ns1.example.com.") emptyChoiceMap
      (queryMsg "x." typeA) ⟨"x.", typeA⟩ [] (RR.mk "x." "NS" "ns1.example.com.")
      (by decide) (by rfl) (by rfl) (by rfl)
      { opcode := 0, question := [⟨"x.", typeA⟩], answer := [],
        ns := [⟨"x.", "NS", "ns1.example.com."⟩], authoritative := true,
        compress := false, response := true } (by rfl)⟩

/-! ## Claim C7 -/

/-- C7: for every direct (non-"cname."-tagged) A query with alternation
disabled and a non-empty configured A set, the reply's answer section has
exactly one A record per syntactically valid configured address — one
that net.ParseIP accepts and that passes the zone parser's IPv4-family
check (no colon) — in configured order; every other entry is omitted, and
if no entry is valid the answer section is empty. -/
theorem C7_direct_A_answers (recs : Records) (auth nm : String) (cm : ChoiceMap)
    (htag : hasCnameTag nm = false) (hname : validTok nm = true) (hA : recs.A ≠ []) :
    (handle (mkConfig recs false auth) cm (queryMsg nm typeA)).1.isReply = true ∧
    ∀ m, (handle (mkConfig recs false auth) cm (queryMsg nm typeA)).1 =
        HandlerOutcome.reply m →
      m.answer = (recs.A.filter (fun ip => goParseIPOk ip && !ip.toList.contains ':')).map
        (fun ip => RR.mk nm "A" ip) := by
  have hq : handleQuestion (mkConfig recs false auth) ⟨nm, typeA⟩ [] cm =
      (Except.ok (buildAnswers nm "A" recs.A), cm) := by
    rw [handleQuestion_plain_A _ _ _ _ htag]
    simp [mkConfig, List.length_pos.mpr hA]
  have e := handle_queryMsg _ cm nm typeA _ _ hq
  rw [e]
  refine ⟨rfl, ?_⟩
  intro m hm
  cases hm
  simpa using buildAnswers_A_eq nm hname recs.A

/-- C7 witness: the invalid middle entry is dropped and the two valid
addresses are answered in configured order. -/
theorem C7_direct_A_answers_witness :
    (handle (mkConfig ⟨["9.9.9.9", "not-an-ip", "1.2.3.4"], [], [], []⟩ false "")
        emptyChoiceMap (queryMsg "x." typeA)).1 =
      HandlerOutcome.reply (plainReply "x." typeA
        [⟨"x.", "A", "9.9.9.9"⟩, ⟨"x.", "A", "1.2.3.4"⟩]) ∧
    (plainReply "x." typeA [⟨"x.", "A", "9.9.9.9"⟩, ⟨"x.", "A", "1.2.3.4"⟩]).answer =
      ((["9.9.9.9", "not-an-ip", "1.2.3.4"].filter
          (fun ip => goParseIPOk ip && !ip.toList.contains ':')).map
        (fun ip => RR.mk "x." "A" ip)) :=
  ⟨by rfl,
    (C7_direct_A_answers ⟨["9.9.9.9", "not-an-ip", "1.2.3.4"], [], [], []⟩ "" "x."
        emptyChoiceMap (by rfl) (by rfl) (by decide)).2
      (plainReply "x." typeA [⟨"x.", "A", "9.9.9.9"⟩, ⟨"x.", "A", "1.2.3.4"⟩]) (by rfl)⟩

end DnsDelayServer
